import Mathlib

/-!
Verification of the document-generation pipeline in `cad_desktop.py`.

The Python source is shallowly embedded: each function of the pipeline is
translated to an executable Lean definition, with the effects of remote
calls (network results, exceptions) made explicit as parameters, and the
theorems below settle the specification's claims about those definitions.
-/

namespace CadDesktop

/-! ## Resilient Call Wrapper (`with_backoff`)

`with_backoff(func, max_retries=5, initial_delay=1.0, factor=2.0)` runs
`func` up to `max_retries` times; on an exception it re-raises on the last
attempt, otherwise sleeps the current delay and multiplies it by `factor`.
After the loop a final `raise last_exc` remains; if the loop body never ran
(`max_retries <= 0`) `last_exc` is unbound, so Python raises a NameError.

We embed the operation's behavior as a function `outs : Nat → Except E A`
from the (1-based) attempt number to that invocation's outcome, and return
the final result together with the number of invocations made and the list
of sleep durations, in order.  Delays are modelled as rationals. -/

/-- Outcome of a `with_backoff` run: a value returned from inside the loop,
an exception re-raised from inside the loop (the bare `raise`), the
post-loop `raise last_exc`, or Python's NameError for unbound `last_exc`. -/
inductive BackoffResult (E A : Type) where
  | ok (v : A)
  | raised (e : E)
  | raisedAfter (e : E)
  | nameError
  deriving Repr, DecidableEq

/-- The retry loop of `with_backoff`: `attempt` is the current 1-based
attempt number, `remaining` the number of loop iterations left
(`remaining = 1` means `attempt == max_retries`), `delay` the current sleep
duration, `lastExc` the latest caught exception, `sleeps` the sleeps
performed so far.  Returns the result, the number of invocations of the
operation, and the sleeps in order. -/
def backoffLoop (outs : Nat → Except E A) (f : ℚ) :
    Nat → Nat → ℚ → Option E → List ℚ → BackoffResult E A × Nat × List ℚ
  | attempt, 0, _, lastExc, sleeps =>
      (match lastExc with
       | some e => .raisedAfter e
       | none => .nameError, attempt - 1, sleeps)
  | attempt, r + 1, delay, _, sleeps =>
      match outs attempt with
      | .ok v => (.ok v, attempt, sleeps)
      | .error e =>
          if r = 0 then (.raised e, attempt, sleeps)
          else backoffLoop outs f (attempt + 1) r (delay * f) (some e) (sleeps ++ [delay])

/-- The wrapper `with_backoff` itself.  `maxRetries : ℤ` mirrors the Python integer:
`range(1, max_retries + 1)` is empty whenever `max_retries <= 0`. -/
def with_backoff (outs : Nat → Except E A) (maxRetries : ℤ)
    (initialDelay factor : ℚ) : BackoffResult E A × Nat × List ℚ :=
  backoffLoop outs factor 1 (max maxRetries 0).toNat initialDelay none []

/-! ## Python string primitives used by the source -/

/-- Python `str.lower`, restricted to the Latin and Cyrillic letters the
program manipulates (ASCII `A`–`Z`, Cyrillic `А`–`Я` and `Ё`). -/
def pyLowerChar (c : Char) : Char :=
  if 'A' ≤ c ∧ c ≤ 'Z' then Char.ofNat (c.toNat + 32)
  else if 0x410 ≤ c.toNat ∧ c.toNat ≤ 0x42F then Char.ofNat (c.toNat + 32)
  else if c.toNat = 0x401 then Char.ofNat 0x451
  else c

/-- Python `s.lower()`. -/
def pyLower (s : String) : String :=
  String.mk (s.data.map pyLowerChar)

/-- Does `needle` occur at the start of `hay`? -/
def subAt : List Char → List Char → Bool
  | [], _ => true
  | _ :: _, [] => false
  | a :: as, b :: bs => a = b && subAt as bs

/-- Does `needle` occur anywhere in `hay`? -/
def hasSub (needle : List Char) : List Char → Bool
  | [] => subAt needle []
  | b :: bs => subAt needle (b :: bs) || hasSub needle bs

/-- Python `needle in hay` for strings: substring containment. -/
def pyContains (needle hay : String) : Bool :=
  hasSub needle.data hay.data

/-- Python `str(x)` on an optional string: `None` prints as `"None"`. -/
def pyStr (o : Option String) : String :=
  match o with
  | some s => s
  | none => "None"

/-- Python truthiness of an optional string (`None` and `""` are falsy). -/
def pyTruthy (o : Option String) : Bool :=
  match o with
  | some s => decide (s ≠ "")
  | none => false

/-- Python `c.isspace()` for the ASCII whitespace characters. -/
def pyIsSpace (c : Char) : Bool :=
  c = ' ' ∨ c = '\t' ∨ c = '\n' ∨ c = '\x0d' ∨ c = '\x0b' ∨ c = '\x0c'

/-- Python `s.strip()`: drop whitespace from both ends. -/
def pyStrip (s : String) : String :=
  String.mk (((s.data.dropWhile pyIsSpace).reverse.dropWhile pyIsSpace).reverse)

/-- Python `c.isalnum()`, restricted to the Latin and Cyrillic alphabet plus
the digits — the alphabet of the program's titles. -/
def pyIsAlnum (c : Char) : Bool :=
  c.isAlphanum ∨ (0x410 ≤ c.toNat ∧ c.toNat ≤ 0x44F) ∨ c.toNat = 0x401 ∨ c.toNat = 0x451

/-- Python `a or b` on optional strings (falsy left operand selects `b`). -/
def pyOrOpt (a b : Option String) : Option String :=
  match a with
  | some s => if s = "" then b else some s
  | none => b

/-! ## Web Research Client (`google_search_image` result selection) -/

/-- One entry of the image search's `items` list: `{link, image:
{thumbnailLink, contextLink}}`, each field possibly absent. -/
structure ImageItem where
  link : Option String
  thumbnailLink : Option String
  contextLink : Option String
  deriving Repr, DecidableEq

/-- The body of `google_search_image._call` after a successful HTTP
response: empty `items` gives `None`; otherwise the first item's `link` if
the key is present, else `thumbnailLink or contextLink`. -/
def firstImageLink (items : List ImageItem) : Option String :=
  match items with
  | [] => none
  | first :: _ =>
      match first.link with
      | some l => some l
      | none => pyOrOpt first.thumbnailLink first.contextLink

/-- The operation `google_search_image(query)`: the `_call` closure raises exactly when
the HTTP layer raises, and otherwise returns `firstImageLink`; the whole is
wrapped by `with_backoff` with its default parameters.  `respSeq n` is the
HTTP outcome of the n-th invocation. -/
def google_search_image (respSeq : Nat → Except String (List ImageItem)) :
    BackoffResult String (Option String) × Nat × List ℚ :=
  with_backoff (fun n => (respSeq n).map firstImageLink) 5 1 2

/-! ## Aggregator (`execute_ai_plan` research loop) -/

/-- A plan step as consumed by the loop: `step.get("query")`. -/
structure Step where
  query : Option String
  deriving Repr, DecidableEq

/-- The image-seeking classifier of `execute_ai_plan`:
`"фото" in q.lower() or "фотограф" in q.lower() or "image" in q.lower() or
"фотограф" in q.lower()`. -/
def isImageQuery (q : String) : Bool :=
  pyContains "фото" (pyLower q) ∨ pyContains "фотограф" (pyLower q) ∨
    pyContains "image" (pyLower q) ∨ pyContains "фотограф" (pyLower q)

/-- A text search hit `{title, snippet, link}` with possibly-absent
fields. -/
structure TextResult where
  title : Option String
  snippet : Option String
  link : Option String
  deriving Repr, DecidableEq

/-- The fact format `f"{r.get('title')} — {r.get('snippet')} ({r.get('link')})"`. -/
def formatFact (r : TextResult) : String :=
  pyStr r.title ++ " — " ++ pyStr r.snippet ++ " (" ++ pyStr r.link ++ ")"

/-- One entry of `collected`: the dicts appended by the research loop. -/
inductive Collected where
  | image (query : String) (result : Option String)
  | imageErr (query : String) (error : String)
  | text (query : String) (result : List TextResult)
  | textErr (query : String) (error : String)
  deriving Repr, DecidableEq

/-- The mutable locals of the research loop. -/
structure AggState where
  collected : List Collected
  imageUrl : Option String
  factsSummary : List String
  deriving Repr, DecidableEq

/-- One iteration of the research loop of `execute_ai_plan`.  `ic q` is the
outcome of `google_search_image(q)` (post-backoff), `tc q` that of
`google_search_text(q, num=MAX_SEARCH_RESULTS)`. -/
def processStep (ic : String → Except String (Option String))
    (tc : String → Except String (List TextResult))
    (st : AggState) (step : Step) : AggState :=
  match step.query with
  | none => st
  | some q =>
      if q = "" then st
      else if isImageQuery q then
        match ic q with
        | .ok url =>
            { st with imageUrl := url,
                      collected := st.collected ++ [.image q url] }
        | .error e => { st with collected := st.collected ++ [.imageErr q e] }
      else
        match tc q with
        | .ok results =>
            { st with collected := st.collected ++ [.text q results],
                      factsSummary := st.factsSummary ++ results.map formatFact }
        | .error e => { st with collected := st.collected ++ [.textErr q e] }

/-- The research loop over all steps, from the empty state. -/
def aggregate (ic : String → Except String (Option String))
    (tc : String → Except String (List TextResult))
    (steps : List Step) : AggState :=
  steps.foldl (processStep ic tc) ⟨[], none, []⟩

/-- The truncation `facts_summary[:20]`, the `factSummaries` field of the aggregated
record handed to the Article Composer. -/
def factSummaries (ic : String → Except String (Option String))
    (tc : String → Except String (List TextResult))
    (steps : List Step) : List String :=
  (aggregate ic tc steps).factsSummary.take 20

/-! ## Output filename derivation (`execute_ai_plan`, tail) -/

/-- Title sanitization: `"".join(c for c in article_title if c.isalnum() or c in " _-").strip()`. -/
def sanitizeTitle (title : String) : String :=
  pyStrip (String.mk (title.data.filter (fun c => pyIsAlnum c ∨ c = ' ' ∨ c = '_' ∨ c = '-')))

/-- The expression `f"{safe_title or 'article'}.docx"` without the extension: the base
name, with the fixed fallback when sanitization yields the empty string. -/
def filenameBase (title : String) : String :=
  if sanitizeTitle title = "" then "article" else sanitizeTitle title

/-- The full output filename. -/
def outputFilename (title : String) : String :=
  filenameBase title ++ ".docx"

/-! ## Document Renderer (`create_word_document`)

The docx object is modelled as the ordered list of elements added to it;
filesystem state as the list of temporary files existing when the function
returns.  The fallible steps of the image-embedding block (HTTP download,
image decode, saving the decoded image, `doc.add_picture`) are surfaced as
an environment of `Except` outcomes. -/

/-- An element added to the document, in insertion order. -/
inductive DocElem where
  | title (s : String)
  | heading2 (s : String)
  | para (s : String)
  | pageBreak
  | picture (path : String)
  deriving Repr, DecidableEq

/-- A section of the article JSON: `sec.get("heading", "")` and
`sec.get("body", "")` read possibly-absent keys. -/
structure Section where
  heading : Option String
  body : Option String
  deriving Repr, DecidableEq

/-- The article JSON handed to the renderer. -/
structure Article where
  title : Option String
  sections : List Section
  deriving Repr, DecidableEq

/-- The reserved image-placeholder headings:
`("imageplaceholder", "image placeholder", "image")`. -/
def placeholderTokens : List String :=
  ["imageplaceholder", "image placeholder", "image"]

/-- Python `body.split("\n\n")`: split on each leftmost non-overlapping
occurrence of the blank-line separator.  `acc` holds the current segment's
characters in reverse. -/
def splitBlank : List Char → List Char → List (List Char)
  | acc, '\n' :: '\n' :: rest => acc.reverse :: splitBlank [] rest
  | acc, c :: rest => splitBlank (c :: acc) rest
  | acc, [] => [acc.reverse]

/-- Paragraph splitting: `[p.strip() for p in body.split("\n\n") if p.strip()]`. -/
def splitParas (body : String) : List String :=
  ((splitBlank [] body.data).map (fun cs => pyStrip (String.mk cs))).filter
    (fun p => p ≠ "")

/-- The elements added for one section: a level-2 heading unless the
heading is empty or a placeholder token (case-insensitively), then the
body's paragraphs. -/
def renderSection (sec : Section) : List DocElem :=
  let heading := sec.heading.getD ""
  let body := sec.body.getD ""
  (if (heading != "") && !(placeholderTokens.contains (pyLower heading))
   then [DocElem.heading2 heading] else [])
    ++ (splitParas body).map DocElem.para

/-- Outcomes of the fallible operations inside the image-embedding block,
in program order, plus the name `tempfile` hands out.  The temporary file
comes into existence after a successful decode (at
`tempfile.NamedTemporaryFile(delete=False)`). -/
structure EmbedEnv where
  download : Except String Unit
  decode : Except String Unit
  save : Except String Unit
  addPicture : Except String Unit
  tmpName : String
  deriving Repr

/-- The fallback line `f"Не удалось загрузить изображение. Ссылка: {image_url}"`. -/
def embedFallback (url : String) : String :=
  "Не удалось загрузить изображение. Ссылка: " ++ url

/-- The fixed notice used when no image URL is present. -/
def notFoundNotice : String :=
  "Изображение не найдено."

/-- The `if image_url:` block of `create_word_document`: returns the
document elements after the block and the temporary files left on disk.
The whole block is a `try` whose `except` appends the fallback paragraph;
`os.unlink` runs only as the last statement of the `try`. -/
def embedImage (env : EmbedEnv) (url : String) (doc : List DocElem) :
    List DocElem × List String :=
  match env.download with
  | .error _ => (doc ++ [.para (embedFallback url)], [])
  | .ok _ =>
      match env.decode with
      | .error _ => (doc ++ [.para (embedFallback url)], [])
      | .ok _ =>
          match env.save with
          | .error _ => (doc ++ [.para (embedFallback url)], [env.tmpName])
          | .ok _ =>
              match env.addPicture with
              | .error _ =>
                  (doc ++ [.pageBreak, .heading2 "Изображение",
                           .para (embedFallback url)], [env.tmpName])
              | .ok _ =>
                  (doc ++ [.pageBreak, .heading2 "Изображение",
                           .picture env.tmpName], [])

/-- The renderer `create_word_document(article_json, image_url, ...)`: the title
heading, the rendered sections, then the image block (or the "not found"
notice when `image_url` is falsy). -/
def create_word_document (article : Article) (imageUrl : Option String)
    (env : EmbedEnv) : List DocElem × List String :=
  let doc := DocElem.title (article.title.getD "Article")
    :: (article.sections.map renderSection).flatten
  if pyTruthy imageUrl then embedImage env (imageUrl.getD "") doc
  else (doc ++ [.para notFoundNotice], [])

/-! ## JSON and the plan-parse fallback (`gemini_call_generate_plan`)

`json.loads` is embedded as a recursive-descent parser over the JSON
fragment the program exchanges (strings, integers, booleans, null, arrays,
objects), rejecting trailing non-whitespace just as `json.loads` does. -/

/-- A JSON value. -/
inductive Json where
  | null
  | bool (b : Bool)
  | num (n : Int)
  | str (s : String)
  | arr (xs : List Json)
  | obj (kvs : List (String × Json))
  deriving Repr

/-- JSON insignificant whitespace. -/
def jsonWs (c : Char) : Bool :=
  c = ' ' ∨ c = '\t' ∨ c = '\n' ∨ c = '\x0d'

/-- Skip insignificant whitespace. -/
def skipWs (s : List Char) : List Char :=
  s.dropWhile jsonWs

/-- Parse the remainder of a JSON string literal (the opening quote already
consumed), returning its characters and the rest of the input. -/
def parseJStringAux : List Char → Option (List Char × List Char)
  | [] => none
  | '"' :: rest => some ([], rest)
  | '\\' :: rest =>
      match rest with
      | [] => none
      | e :: rest' =>
          let c? : Option Char :=
            if e = '"' then some '"'
            else if e = '\\' then some '\\'
            else if e = '/' then some '/'
            else if e = 'n' then some '\n'
            else if e = 't' then some '\t'
            else if e = 'r' then some '\x0d'
            else if e = 'b' then some '\x08'
            else if e = 'f' then some '\x0c'
            else none
          match c? with
          | none => none
          | some c => (parseJStringAux rest').map (fun p => (c :: p.1, p.2))
  | c :: rest => (parseJStringAux rest).map (fun p => (c :: p.1, p.2))

/-- Consume a run of digits, accumulating their value. -/
def digitsAux (acc : Nat) : List Char → Nat × List Char
  | [] => (acc, [])
  | c :: rest =>
      if c.isDigit then digitsAux (acc * 10 + (c.toNat - 48)) rest
      else (acc, c :: rest)

mutual

/-- Parse one JSON value (fuelled). -/
def parseValue : Nat → List Char → Option (Json × List Char)
  | 0, _ => none
  | fuel + 1, s =>
      match skipWs s with
      | [] => none
      | '"' :: rest =>
          (parseJStringAux rest).map (fun p => (Json.str (String.mk p.1), p.2))
      | '\x7b' :: rest =>
          match skipWs rest with
          | '\x7d' :: r2 => some (.obj [], r2)
          | _ => parseMembers fuel rest []
      | '[' :: rest =>
          match skipWs rest with
          | ']' :: r2 => some (.arr [], r2)
          | _ => parseItems fuel rest []
      | 't' :: 'r' :: 'u' :: 'e' :: rest => some (.bool true, rest)
      | 'f' :: 'a' :: 'l' :: 's' :: 'e' :: rest => some (.bool false, rest)
      | 'n' :: 'u' :: 'l' :: 'l' :: rest => some (.null, rest)
      | '-' :: c :: rest =>
          if c.isDigit then
            let p := digitsAux (c.toNat - 48) rest
            some (.num (-(p.1 : Int)), p.2)
          else none
      | c :: rest =>
          if c.isDigit then
            let p := digitsAux (c.toNat - 48) rest
            some (.num (p.1 : Int), p.2)
          else none

/-- Parse the items of a non-empty JSON array (fuelled). -/
def parseItems : Nat → List Char → List Json → Option (Json × List Char)
  | 0, _, _ => none
  | fuel + 1, s, acc =>
      match parseValue fuel s with
      | none => none
      | some (v, rest) =>
          match skipWs rest with
          | ',' :: r2 => parseItems fuel r2 (acc ++ [v])
          | ']' :: r2 => some (.arr (acc ++ [v]), r2)
          | _ => none

/-- Parse the members of a non-empty JSON object (fuelled). -/
def parseMembers : Nat → List Char → List (String × Json) →
    Option (Json × List Char)
  | 0, _, _ => none
  | fuel + 1, s, acc =>
      match skipWs s with
      | '"' :: rest =>
          match parseJStringAux rest with
          | none => none
          | some (key, r2) =>
              match skipWs r2 with
              | ':' :: r3 =>
                  match parseValue fuel r3 with
                  | none => none
                  | some (v, r4) =>
                      match skipWs r4 with
                      | ',' :: r5 => parseMembers fuel r5 (acc ++ [(String.mk key, v)])
                      | '\x7d' :: r5 => some (.obj (acc ++ [(String.mk key, v)]), r5)
                      | _ => none
              | _ => none
      | _ => none

end

/-- Python `json.loads`: parse one JSON document, rejecting leading garbage and
trailing non-whitespace. -/
def pyJsonLoads (s : String) : Option Json :=
  match parseValue (s.length + 2) s.data with
  | some (j, rest) => if skipWs rest = [] then some j else none
  | none => none

/-- Index of the first occurrence of `c`, if any. -/
def firstIdxOf (c : Char) : List Char → Option Nat
  | [] => none
  | a :: rest => if a = c then some 0 else (firstIdxOf c rest).map (· + 1)

/-- The regex fallback `re.search(r'(\x7b.*\x7d)', raw, flags=re.S)`: with a greedy `.*` and
DOTALL, the match runs from the first `\x7b` to the last `\x7d` of the
whole text, provided the former precedes the latter. -/
def greedyBraceExtract (s : List Char) : Option (List Char) :=
  match firstIdxOf '\x7b' s, (firstIdxOf '\x7d' s.reverse).map (s.length - 1 - ·) with
  | some i, some j => if i < j then some ((s.drop i).take (j - i + 1)) else none
  | _, _ => none

/-- Result of the plan-parsing logic in `gemini_call_generate_plan._call`:
success, a `JSONDecodeError` escaping from the fallback parse (which
carries only the extracted substring's diagnostics, not the raw body), or
the explicit `ValueError` carrying the raw text. -/
inductive PlanParse where
  | ok (j : Json)
  | decodeErr
  | planParseErr (raw : String)
  deriving Repr

/-- The parsing logic of `gemini_call_generate_plan._call` applied to the
raw response body: direct `json.loads`, then the brace-extraction
fallback, then the `ValueError` carrying the raw text. -/
def parsePlanRaw (raw : String) : PlanParse :=
  match pyJsonLoads raw with
  | some j => .ok j
  | none =>
      match greedyBraceExtract raw.data with
      | some sub =>
          match pyJsonLoads (String.mk sub) with
          | some j => .ok j
          | none => .decodeErr
      | none => .planParseErr raw

/-- Modelled from the spec: "extracting the first top-level brace-delimited
substring" — scan to the first `\x7b` and take the substring through its
matching `\x7d`, tracking nesting depth.  Used only to compare the spec's
description of the fallback with the source's regex. -/
def specBalancedScan : Nat → List Char → List Char → Option (List Char)
  | _, _, [] => none
  | depth, acc, c :: rest =>
      if c = '\x7b' then specBalancedScan (depth + 1) (c :: acc) rest
      else if c = '\x7d' then
        if depth = 1 then some ((c :: acc).reverse)
        else specBalancedScan (depth - 1) (c :: acc) rest
      else specBalancedScan depth (c :: acc) rest

/-- Modelled from the spec: the first top-level brace-delimited substring
of `s`. -/
def specFirstBraceDelimited (s : List Char) : Option (List Char) :=
  match s.dropWhile (· ≠ '\x7b') with
  | [] => none
  | c :: rest => specBalancedScan 1 [c] rest

/-! ## Helper lemmas about the retry loop -/

/-- The geometric sleep schedule the loop produces: `n` sleeps starting at
`d`, each multiplied by `f`. -/
def geomSleeps (d f : ℚ) : Nat → List ℚ
  | 0 => []
  | n + 1 => d :: geomSleeps (d * f) f n

lemma geomSleeps_eq (f : ℚ) :
    ∀ (n : Nat) (d : ℚ), geomSleeps d f n = (List.range n).map (fun i => d * f ^ i) := by
  intro n
  induction n with
  | zero => intro d; simp [geomSleeps]
  | succ k ih =>
      intro d
      rw [geomSleeps, ih (d * f), List.range_succ_eq_map, List.map_cons, List.map_map]
      refine congrArg₂ List.cons (by ring) (List.map_congr_left ?_)
      intro i _
      simp only [Function.comp_apply, pow_succ]
      ring

lemma backoffLoop_ok (outs : Nat → Except E A) (f : ℚ) (es : Nat → E) (v : A) :
    ∀ (k a r : Nat) (d : ℚ) (lex : Option E) (sl : List ℚ),
      (∀ i, a ≤ i → i < a + k → outs i = .error (es i)) →
      outs (a + k) = .ok v → k < r →
      backoffLoop outs f a r d lex sl = (.ok v, a + k, sl ++ geomSleeps d f k) := by
  intro k
  induction k with
  | zero =>
      intro a r d lex sl _ hok hr
      obtain ⟨r', rfl⟩ : ∃ r', r = r' + 1 := ⟨r - 1, by omega⟩
      rw [Nat.add_zero] at hok
      simp [backoffLoop, hok, geomSleeps]
  | succ k ih =>
      intro a r d lex sl herr hok hr
      obtain ⟨r', rfl⟩ : ∃ r', r = r' + 1 := ⟨r - 1, by omega⟩
      have ha : outs a = .error (es a) := herr a le_rfl (by omega)
      have hr' : ¬ r' = 0 := by omega
      simp only [backoffLoop, ha, hr', if_false]
      rw [ih (a + 1) r' (d * f) (some (es a)) (sl ++ [d])
            (fun i h1 h2 => herr i (by omega) (by omega))
            (by rw [show a + 1 + k = a + (k + 1) by omega]; exact hok)
            (by omega)]
      simp [geomSleeps]
      omega

lemma backoffLoop_allFail (outs : Nat → Except E A) (f : ℚ) (es : Nat → E) :
    ∀ (r a : Nat) (d : ℚ) (lex : Option E) (sl : List ℚ), 1 ≤ r →
      (∀ i, a ≤ i → i < a + r → outs i = .error (es i)) →
      backoffLoop outs f a r d lex sl =
        (.raised (es (a + r - 1)), a + r - 1, sl ++ geomSleeps d f (r - 1)) := by
  intro r
  induction r with
  | zero => intro a d lex sl hr; omega
  | succ r' ih =>
      intro a d lex sl _ h
      have ha : outs a = .error (es a) := h a le_rfl (by omega)
      by_cases h0 : r' = 0
      · subst h0
        simp [backoffLoop, ha, geomSleeps]
      · simp only [backoffLoop, ha, h0, if_false]
        rw [ih (a + 1) (d * f) (some (es a)) (sl ++ [d]) (by omega)
              (fun i h1 h2 => h i (by omega) (by omega))]
        obtain ⟨r'', rfl⟩ : ∃ r'', r' = r'' + 1 := ⟨r' - 1, by omega⟩
        have hidx : a + 1 + (r'' + 1) - 1 = a + (r'' + 1 + 1) - 1 := by omega
        rw [hidx]
        simp [geomSleeps]

/-- Does a `BackoffResult` come from after the loop (the trailing
`raise last_exc`, or its NameError when `last_exc` is unbound)? -/
def escapedLoop : BackoffResult E A → Bool
  | .raisedAfter _ => true
  | .nameError => true
  | _ => false

lemma backoffLoop_no_escape (outs : Nat → Except E A) (f : ℚ) :
    ∀ (r a : Nat) (d : ℚ) (lex : Option E) (sl : List ℚ), 1 ≤ r →
      escapedLoop (backoffLoop outs f a r d lex sl).1 = false := by
  intro r
  induction r with
  | zero => intro a d lex sl hr; omega
  | succ r' ih =>
      intro a d lex sl _
      cases houts : outs a with
      | ok v => simp [backoffLoop, houts, escapedLoop]
      | error e =>
          by_cases h0 : r' = 0
          · subst h0; simp [backoffLoop, houts, escapedLoop]
          · simp only [backoffLoop, houts, h0, if_false]
            exact ih (a + 1) (d * f) (some e) (sl ++ [d]) (by omega)

/-! ## Helper lemmas about the research loop -/

/-- The `collected` entry a step with (nonempty) query `q` contributes,
read off the branches of the loop body. -/
def stepEntry (ic : String → Except String (Option String))
    (tc : String → Except String (List TextResult)) (q : String) : Collected :=
  if isImageQuery q then
    match ic q with
    | .ok url => .image q url
    | .error e => .imageErr q e
  else
    match tc q with
    | .ok rs => .text q rs
    | .error e => .textErr q e

/-- How a step with (nonempty) query `q` updates `image_url`. -/
def stepImage (ic : String → Except String (Option String)) (q : String)
    (old : Option String) : Option String :=
  if isImageQuery q then
    match ic q with
    | .ok u => u
    | .error _ => old
  else old

/-- The `facts_summary` entries a step with (nonempty) query `q`
contributes. -/
def stepFactsQ (tc : String → Except String (List TextResult)) (q : String) :
    List String :=
  if isImageQuery q then []
  else
    match tc q with
    | .ok rs => rs.map formatFact
    | .error _ => []

/-- The `facts_summary` entries any step contributes (skipped steps
contribute none). -/
def stepFacts (tc : String → Except String (List TextResult)) (s : Step) :
    List String :=
  match s.query with
  | none => []
  | some q => if q = "" then [] else stepFactsQ tc q

/-- The result of the image lookup of one step when that step is
image-seeking and its lookup succeeds, `none` otherwise.  (Statement-side
characterization of "successful image-seeking step", following the
spec.) -/
def specImageStepResult (ic : String → Except String (Option String))
    (s : Step) : Option (Option String) :=
  match s.query with
  | none => none
  | some q =>
      if q = "" then none
      else if isImageQuery q then
        match ic q with
        | .ok u => some u
        | .error _ => none
      else none

/-- The results of the successful image-seeking steps, in step order. -/
def specImageSuccessResults (ic : String → Except String (Option String))
    (steps : List Step) : List (Option String) :=
  steps.filterMap (specImageStepResult ic)

/-- The last element of a list, or a default when it is empty. -/
def lastOr (dflt : Option String) : List (Option String) → Option String
  | [] => dflt
  | x :: xs => lastOr x xs

lemma processStep_skip_none (ic : String → Except String (Option String))
    (tc : String → Except String (List TextResult)) (st : AggState) (s : Step)
    (hq : s.query = none) : processStep ic tc st s = st := by
  simp [processStep, hq]

lemma processStep_skip_empty (ic : String → Except String (Option String))
    (tc : String → Except String (List TextResult)) (st : AggState) (s : Step)
    (hq : s.query = some "") : processStep ic tc st s = st := by
  simp [processStep, hq]

lemma processStep_some (ic : String → Except String (Option String))
    (tc : String → Except String (List TextResult)) (st : AggState) (s : Step)
    (q : String) (hq : s.query = some q) (hne : q ≠ "") :
    processStep ic tc st s =
      ⟨st.collected ++ [stepEntry ic tc q],
       stepImage ic q st.imageUrl,
       st.factsSummary ++ stepFactsQ tc q⟩ := by
  unfold processStep stepEntry stepImage stepFactsQ
  rw [hq]
  by_cases himg : isImageQuery q = true
  · cases hic : ic q <;> simp [hne, himg, hic]
  · cases htc : tc q <;> simp [hne, himg, htc]

lemma aggregate_collected (ic : String → Except String (Option String))
    (tc : String → Except String (List TextResult)) :
    ∀ (steps : List Step) (st : AggState),
      (∀ s ∈ steps, ∃ q, s.query = some q ∧ q ≠ "") →
      (steps.foldl (processStep ic tc) st).collected
        = st.collected ++ steps.map (fun s => stepEntry ic tc (s.query.getD "")) := by
  intro steps
  induction steps with
  | nil => intro st _; simp
  | cons s rest ih =>
      intro st h
      obtain ⟨q, hq, hne⟩ := h s (List.mem_cons_self s rest)
      rw [List.foldl_cons, processStep_some ic tc st s q hq hne,
          ih _ (fun t ht => h t (List.mem_cons_of_mem s ht))]
      simp [hq]

lemma aggregate_imageUrl (ic : String → Except String (Option String))
    (tc : String → Except String (List TextResult)) :
    ∀ (steps : List Step) (st : AggState),
      (steps.foldl (processStep ic tc) st).imageUrl
        = lastOr st.imageUrl (specImageSuccessResults ic steps) := by
  intro steps
  induction steps with
  | nil => intro st; rfl
  | cons s rest ih =>
      intro st
      rw [List.foldl_cons]
      cases hq : s.query with
      | none =>
          rw [processStep_skip_none ic tc st s hq, ih st]
          simp [specImageSuccessResults, List.filterMap_cons, specImageStepResult, hq]
      | some q =>
          by_cases hq0 : q = ""
          · subst hq0
            rw [processStep_skip_empty ic tc st s hq, ih st]
            simp [specImageSuccessResults, List.filterMap_cons, specImageStepResult, hq]
          · rw [processStep_some ic tc st s q hq hq0, ih _]
            by_cases himg : isImageQuery q = true
            · cases hic : ic q with
              | ok u =>
                  simp [specImageSuccessResults, List.filterMap_cons,
                        specImageStepResult, hq, hq0, himg, hic, stepImage, lastOr]
              | error e =>
                  simp [specImageSuccessResults, List.filterMap_cons,
                        specImageStepResult, hq, hq0, himg, hic, stepImage]
            · simp [specImageSuccessResults, List.filterMap_cons,
                    specImageStepResult, hq, hq0, himg, stepImage]

lemma aggregate_facts (ic : String → Except String (Option String))
    (tc : String → Except String (List TextResult)) :
    ∀ (steps : List Step) (st : AggState),
      (steps.foldl (processStep ic tc) st).factsSummary
        = st.factsSummary ++ (steps.map (stepFacts tc)).flatten := by
  intro steps
  induction steps with
  | nil => intro st; simp
  | cons s rest ih =>
      intro st
      rw [List.foldl_cons]
      cases hq : s.query with
      | none =>
          rw [processStep_skip_none ic tc st s hq, ih st]
          simp [stepFacts, hq]
      | some q =>
          by_cases hq0 : q = ""
          · subst hq0
            rw [processStep_skip_empty ic tc st s hq, ih st]
            simp [stepFacts, hq]
          · rw [processStep_some ic tc st s q hq hq0, ih _]
            simp [stepFacts, hq, hq0]

/-! ## Claim theorems -/

/-- C3: with the default attempt cap of 5, initial delay `d` and multiplier
`f`, an operation failing on its first 4 invocations and succeeding on the
5th makes `with_backoff` return the success value after exactly 5
invocations with sleeps `d, d*f, d*f^2, d*f^3`; an operation that always
fails makes `with_backoff` re-raise the last exception unmodified after
exactly `max_retries` invocations, with no sleep after the last one
(`max_retries - 1` sleeps). -/
theorem with_backoff_retry_semantics {E A : Type} (outs : Nat → Except E A)
    (es : Nat → E) (v : A) (d f : ℚ) (n : ℕ) :
    ((∀ i, 1 ≤ i → i ≤ 4 → outs i = .error (es i)) → outs 5 = .ok v →
      with_backoff outs 5 d f = (.ok v, 5, [d, d * f, d * f ^ 2, d * f ^ 3]))
    ∧ ((∀ i, outs i = .error (es i)) → 1 ≤ n →
      with_backoff outs (n : ℤ) d f =
        (.raised (es n), n, (List.range (n - 1)).map (fun i => d * f ^ i))) := by
  constructor
  · intro herr hok
    have h5 : ((5 : ℤ) ⊔ 0).toNat = 5 := rfl
    unfold with_backoff
    rw [h5, backoffLoop_ok outs f es v 4 1 5 d none []
          (fun i h1 h2 => herr i h1 (by omega)) hok (by omega)]
    rw [geomSleeps_eq]
    simp [List.range_succ]
  · intro herr hn
    have hmax : (((n : ℕ) : ℤ) ⊔ 0).toNat = n := by
      simp
    unfold with_backoff
    rw [hmax, backoffLoop_allFail outs f es n 1 d none [] hn
          (fun i _ _ => herr i)]
    rw [geomSleeps_eq]
    have hidx : 1 + n - 1 = n := by omega
    rw [hidx]
    simp

/-- C3 witness: at `d = 1`, `f = 2`, an operation failing on its first 4
invocations and succeeding on the 5th, and an operation that always fails
with the attempt number as the message. -/
theorem with_backoff_retry_semantics_witness :
    with_backoff (fun i => if i = 5 then .ok "v" else .error (toString i)) 5 1 2
      = (.ok "v", 5, [1, 1 * 2, 1 * 2 ^ 2, 1 * 2 ^ 3])
    ∧ with_backoff (fun i => (.error (toString i) : Except String String)) ((3 : ℕ) : ℤ) 1 2
      = (.raised (toString 3), 3, (List.range (3 - 1)).map (fun i => 1 * 2 ^ i)) :=
  ⟨(with_backoff_retry_semantics (fun i => if i = 5 then .ok "v" else .error (toString i))
      (fun i => toString i) "v" 1 2 3).1
      (by intro i h1 h2; interval_cases i <;> rfl) rfl,
   (with_backoff_retry_semantics (fun i => (.error (toString i) : Except String String))
      (fun i => toString i) "v" 1 2 3).2 (fun _ => rfl) (by norm_num)⟩

/-- C10: for `max_retries >= 1` the statement `raise last_exc` after the
retry loop is unreachable — the result is always a return or a re-raise
from inside the loop; for `max_retries <= 0` the operation is never
invoked and `with_backoff` fails with Python's unbound-local NameError
instead of executing the operation or returning a value. -/
theorem with_backoff_final_raise_unreachable {E A : Type}
    (outs : Nat → Except E A) (d f : ℚ) (m : ℤ) :
    (1 ≤ m → escapedLoop (with_backoff outs m d f).1 = false)
    ∧ (m ≤ 0 → with_backoff outs m d f = (.nameError, 0, [])) := by
  constructor
  · intro hm
    unfold with_backoff
    refine backoffLoop_no_escape outs f (m ⊔ 0).toNat 1 d none [] ?_
    omega
  · intro hm
    unfold with_backoff
    have h0 : (m ⊔ 0).toNat = 0 := by omega
    rw [h0]
    rfl

/-- C10 witness: `max_retries = 2` never reaches the post-loop raise;
`max_retries = -1` makes no invocation and yields the NameError. -/
theorem with_backoff_final_raise_unreachable_witness :
    escapedLoop (with_backoff (fun _ => (.error "e" : Except String String)) 2 1 2).1 = false
    ∧ with_backoff (fun _ => (.error "e" : Except String String)) (-1) 1 2
        = (.nameError, 0, []) :=
  ⟨(with_backoff_final_raise_unreachable (fun _ => (.error "e" : Except String String))
      1 2 2).1 (by norm_num),
   (with_backoff_final_raise_unreachable (fun _ => (.error "e" : Except String String))
      1 2 (-1)).2 (by norm_num)⟩

/-- C1 counterexample: a one-step plan whose step's query is the empty
string (a valid ResearchStep: its query is a string).  The loop's
`if not q: continue` skips it, so `collected` has 0 entries, not 1. -/
theorem collected_skips_empty_query :
    ([Step.mk (some "")].length = 1)
    ∧ (aggregate (fun _ => .ok none) (fun _ => .ok []) [Step.mk (some "")]).collected.length = 0 :=
  ⟨rfl, rfl⟩

/-- C1 (amended): for every plan whose steps all carry a nonempty query,
`collected` has exactly one entry per step, in the original step order;
a failing step contributes an error entry and processing of the remaining
steps continues (the entry of each step is `stepEntry`, an error record
exactly when that step's research call failed). -/
theorem collected_one_entry_per_step (ic : String → Except String (Option String))
    (tc : String → Except String (List TextResult)) (steps : List Step)
    (h : ∀ s ∈ steps, ∃ q, s.query = some q ∧ q ≠ "") :
    (aggregate ic tc steps).collected
      = steps.map (fun s => stepEntry ic tc (s.query.getD ""))
    ∧ (aggregate ic tc steps).collected.length = steps.length := by
  have hc := aggregate_collected ic tc steps ⟨[], none, []⟩ h
  refine ⟨by simpa [aggregate] using hc, ?_⟩
  rw [aggregate, hc]
  simp

/-- C1 witness: a two-step plan whose image step fails and whose text step
succeeds still yields one collected entry per step, in order. -/
theorem collected_one_entry_per_step_witness :
    (aggregate (fun _ => .error "boom") (fun q => .ok [⟨some q, none, some "l"⟩])
        [Step.mk (some "image of X"), Step.mk (some "facts")]).collected
      = [Step.mk (some "image of X"), Step.mk (some "facts")].map
          (fun s => stepEntry (fun _ => .error "boom")
            (fun q => .ok [⟨some q, none, some "l"⟩]) (s.query.getD ""))
    ∧ (aggregate (fun _ => .error "boom") (fun q => .ok [⟨some q, none, some "l"⟩])
        [Step.mk (some "image of X"), Step.mk (some "facts")]).collected.length
      = [Step.mk (some "image of X"), Step.mk (some "facts")].length :=
  collected_one_entry_per_step _ _ _
    (by
      intro s hs
      simp only [List.mem_cons, List.not_mem_nil, or_false] at hs
      rcases hs with rfl | rfl
      · exact ⟨"image of X", rfl, by decide⟩
      · exact ⟨"facts", rfl, by decide⟩)

/-- C2: the run's `image_url` equals the result of the last successful
image-seeking step (the last successful lookup wins, also when it returned
no result); if no image-seeking step succeeds it is `None`, and the
renderer then inserts the fixed "image not found" notice paragraph instead
of an image. -/
theorem imageUrl_last_successful (ic : String → Except String (Option String))
    (tc : String → Except String (List TextResult)) (steps : List Step) :
    (aggregate ic tc steps).imageUrl = lastOr none (specImageSuccessResults ic steps)
    ∧ (specImageSuccessResults ic steps = [] →
        (aggregate ic tc steps).imageUrl = none
        ∧ ∀ (article : Article) (env : EmbedEnv),
            DocElem.para notFoundNotice
              ∈ (create_word_document article (aggregate ic tc steps).imageUrl env).1) := by
  have hme := aggregate_imageUrl ic tc steps ⟨[], none, []⟩
  refine ⟨hme, fun hempty => ?_⟩
  have hnone : (aggregate ic tc steps).imageUrl = none := by
    rw [aggregate, hme, hempty]
    rfl
  refine ⟨hnone, fun article env => ?_⟩
  rw [hnone]
  simp [create_word_document, pyTruthy]

/-- C2 witness: a plan whose single text-seeking step exists but no
image-seeking step, instantiated at a concrete article and environment:
`image_url` is `None` and the rendered document contains the notice. -/
theorem imageUrl_last_successful_witness :
    (aggregate (fun _ => .ok (some "u")) (fun _ => .error "boom")
        [Step.mk (some "facts")]).imageUrl = none
    ∧ DocElem.para notFoundNotice
        ∈ (create_word_document ⟨some "T", []⟩
            (aggregate (fun _ => .ok (some "u")) (fun _ => .error "boom")
              [Step.mk (some "facts")]).imageUrl
            ⟨.ok (), .ok (), .ok (), .ok (), "/tmp/t.png"⟩).1 :=
  ⟨((imageUrl_last_successful (fun _ => .ok (some "u")) (fun _ => .error "boom")
      [Step.mk (some "facts")]).2 rfl).1,
   ((imageUrl_last_successful (fun _ => .ok (some "u")) (fun _ => .error "boom")
      [Step.mk (some "facts")]).2 rfl).2 ⟨some "T", []⟩
      ⟨.ok (), .ok (), .ok (), .ok (), "/tmp/t.png"⟩⟩

/-- C6: the `factSummaries` sequence handed to the Article Composer never
exceeds 20 entries, even when more than 20 text results were collected,
and it is the order-preserving 20-entry truncation of the per-step fact
lists concatenated in step order. -/
theorem factSummaries_capped (ic : String → Except String (Option String))
    (tc : String → Except String (List TextResult)) (steps : List Step) :
    (factSummaries ic tc steps).length ≤ 20
    ∧ factSummaries ic tc steps = ((steps.map (stepFacts tc)).flatten).take 20 := by
  have hf := aggregate_facts ic tc steps ⟨[], none, []⟩
  constructor
  · rw [factSummaries]
    simp [List.length_take]
  · rw [factSummaries, aggregate, hf]
    simp

/-- C4 counterexample: with download, decode and save succeeding and
`doc.add_picture` failing, the renderer returns with the temporary decoded
image still on disk — `os.unlink` sits inside the `try`, before which the
exception escapes, and there is no `finally`.  The text-fallback half of
the claim does hold at this input. -/
theorem temp_image_leak :
    (create_word_document ⟨some "T", []⟩ (some "http://u")
        ⟨.ok (), .ok (), .ok (), .error "picture failed", "/tmp/img.png"⟩).2
      = ["/tmp/img.png"]
    ∧ DocElem.para (embedFallback "http://u")
        ∈ (create_word_document ⟨some "T", []⟩ (some "http://u")
            ⟨.ok (), .ok (), .ok (), .error "picture failed", "/tmp/img.png"⟩).1 :=
  ⟨rfl, by decide⟩

lemma embed_failure_fallback (env : EmbedEnv) (url : String)
    (doc : List DocElem)
    (h : ¬(env.download = .ok () ∧ env.decode = .ok () ∧ env.save = .ok ()
           ∧ env.addPicture = .ok ())) :
    DocElem.para (embedFallback url) ∈ (embedImage env url doc).1 := by
  unfold embedImage
  cases hd : env.download with
  | error e => simp
  | ok u =>
      cases u
      cases hdec : env.decode with
      | error e => simp
      | ok u =>
          cases u
          cases hs : env.save with
          | error e => simp
          | ok u =>
              cases u
              cases hp : env.addPicture with
              | error e => simp
              | ok u =>
                  cases u
                  exact absurd ⟨hd, hdec, hs, hp⟩ h

/-- C4 (amended): when the whole embed block succeeds, the temporary
decoded-image file is deleted before the renderer returns; but when the
embed step fails after the temporary file was created (a failing
`image.save` or `doc.add_picture`), the file is NOT cleaned up.  On any
embed failure — download, decode, save or add_picture — the renderer
degrades to inserting a text line containing the raw URL rather than
aborting the document. -/
theorem temp_image_cleanup (article : Article) (url : String) (env : EmbedEnv)
    (hurl : url ≠ "") :
    (env.download = .ok () → env.decode = .ok () → env.save = .ok () →
       env.addPicture = .ok () →
       (create_word_document article (some url) env).2 = [])
    ∧ (∀ e, env.download = .ok () → env.decode = .ok () → env.save = .error e →
       (create_word_document article (some url) env).2 = [env.tmpName]
       ∧ DocElem.para (embedFallback url)
           ∈ (create_word_document article (some url) env).1)
    ∧ (∀ e, env.download = .ok () → env.decode = .ok () → env.save = .ok () →
       env.addPicture = .error e →
       (create_word_document article (some url) env).2 = [env.tmpName]
       ∧ DocElem.para (embedFallback url)
           ∈ (create_word_document article (some url) env).1)
    ∧ ((∃ e, env.download = .error e) ∨ (∃ e, env.decode = .error e) ∨
       (∃ e, env.save = .error e) ∨ (∃ e, env.addPicture = .error e) →
       DocElem.para (embedFallback url)
         ∈ (create_word_document article (some url) env).1) := by
  refine ⟨?_, ?_, ?_, ?_⟩
  · intro h1 h2 h3 h4
    simp [create_word_document, pyTruthy, hurl, embedImage, h1, h2, h3, h4]
  · intro e h1 h2 h3
    constructor <;>
      simp [create_word_document, pyTruthy, hurl, embedImage, h1, h2, h3]
  · intro e h1 h2 h3 h4
    constructor <;>
      simp [create_word_document, pyTruthy, hurl, embedImage, h1, h2, h3, h4]
  · intro h
    have hne : ¬(env.download = .ok () ∧ env.decode = .ok ()
        ∧ env.save = .ok () ∧ env.addPicture = .ok ()) := by
      rintro ⟨h1, h2, h3, h4⟩
      rcases h with ⟨e, he⟩ | ⟨e, he⟩ | ⟨e, he⟩ | ⟨e, he⟩ <;> simp_all
    have htr : pyTruthy (some url) = true := by simp [pyTruthy, hurl]
    unfold create_word_document
    simp only [htr, if_true]
    exact embed_failure_fallback env url _ hne

/-- C4 witness: a fully successful embed leaves no temporary file; a
failing `image.save` and a failing `add_picture` each leave the temporary
file and insert the URL fallback line; a failing download also inserts the
fallback line. -/
theorem temp_image_cleanup_witness :
    (create_word_document ⟨some "T", []⟩ (some "http://u")
        ⟨.ok (), .ok (), .ok (), .ok (), "/tmp/a.png"⟩).2 = []
    ∧ ((create_word_document ⟨some "T", []⟩ (some "http://u")
          ⟨.ok (), .ok (), .error "save boom", .ok (), "/tmp/a.png"⟩).2
        = ["/tmp/a.png"]
       ∧ DocElem.para (embedFallback "http://u")
           ∈ (create_word_document ⟨some "T", []⟩ (some "http://u")
               ⟨.ok (), .ok (), .error "save boom", .ok (), "/tmp/a.png"⟩).1)
    ∧ ((create_word_document ⟨some "T", []⟩ (some "http://u")
          ⟨.ok (), .ok (), .ok (), .error "boom", "/tmp/a.png"⟩).2 = ["/tmp/a.png"]
       ∧ DocElem.para (embedFallback "http://u")
           ∈ (create_word_document ⟨some "T", []⟩ (some "http://u")
               ⟨.ok (), .ok (), .ok (), .error "boom", "/tmp/a.png"⟩).1)
    ∧ DocElem.para (embedFallback "http://u")
        ∈ (create_word_document ⟨some "T", []⟩ (some "http://u")
            ⟨.error "net down", .ok (), .ok (), .ok (), "/tmp/a.png"⟩).1 :=
  ⟨(temp_image_cleanup ⟨some "T", []⟩ "http://u"
      ⟨.ok (), .ok (), .ok (), .ok (), "/tmp/a.png"⟩ (by decide)).1 rfl rfl rfl rfl,
   (temp_image_cleanup ⟨some "T", []⟩ "http://u"
      ⟨.ok (), .ok (), .error "save boom", .ok (), "/tmp/a.png"⟩ (by decide)).2.1
      "save boom" rfl rfl rfl,
   (temp_image_cleanup ⟨some "T", []⟩ "http://u"
      ⟨.ok (), .ok (), .ok (), .error "boom", "/tmp/a.png"⟩ (by decide)).2.2.1
      "boom" rfl rfl rfl rfl,
   (temp_image_cleanup ⟨some "T", []⟩ "http://u"
      ⟨.error "net down", .ok (), .ok (), .ok (), "/tmp/a.png"⟩ (by decide)).2.2.2
      (Or.inl ⟨"net down", rfl⟩)⟩

/-- C5 counterexample: on the body `x {"a":1} y }` the direct parse fails;
the first top-level brace-delimited substring is `{"a":1}`, which parses,
but the code's greedy regex extracts from the first `\x7b` to the LAST
`\x7d`, i.e. `{"a":1} y }`, whose parse fails — the call raises a
JSONDecodeError that carries no raw text, instead of returning the object
the claim describes. -/
theorem plan_parse_not_first_balanced :
    parsePlanRaw "x \x7b\"a\":1\x7d y \x7d" = .decodeErr
    ∧ (specFirstBraceDelimited ("x \x7b\"a\":1\x7d y \x7d").data).map String.mk
        = some "\x7b\"a\":1\x7d"
    ∧ pyJsonLoads "\x7b\"a\":1\x7d" = some (.obj [("a", .num 1)]) :=
  ⟨rfl, rfl, rfl⟩

/-- C5 (amended): if the direct JSON parse of the body fails, parsing
falls back to the substring running from the first `\x7b` to the last
`\x7d` of the body (the greedy regex) and parses that; in particular the
body `prefix noise {"articleTitle":"X","researchSteps":[]} trailing`
parses to the object `{articleTitle: "X", researchSteps: []}`; when the
body contains no such brace-delimited substring at all, the call fails
with the `ValueError` carrying the raw unparsed text. -/
theorem plan_parse_fallback (raw : String) (sub : List Char) (j : Json) :
    (parsePlanRaw "prefix noise \x7b\"articleTitle\":\"X\",\"researchSteps\":[]\x7d trailing"
       = .ok (.obj [("articleTitle", .str "X"), ("researchSteps", .arr [])]))
    ∧ (pyJsonLoads raw = none → greedyBraceExtract raw.data = some sub →
        pyJsonLoads (String.mk sub) = some j → parsePlanRaw raw = .ok j)
    ∧ (pyJsonLoads raw = none → greedyBraceExtract raw.data = none →
        parsePlanRaw raw = .planParseErr raw) := by
  refine ⟨rfl, ?_, ?_⟩
  · intro h1 h2 h3
    simp [parsePlanRaw, h1, h2, h3]
  · intro h1 h2
    simp [parsePlanRaw, h1, h2]

/-- C5 witness: a body with leading garbage parses through the fallback;
a brace-free body yields the error carrying the raw text. -/
theorem plan_parse_fallback_witness :
    parsePlanRaw "zz \x7b\"k\":2\x7d" = .ok (.obj [("k", .num 2)])
    ∧ parsePlanRaw "no braces at all" = .planParseErr "no braces at all" :=
  ⟨(plan_parse_fallback "zz \x7b\"k\":2\x7d" ("\x7b\"k\":2\x7d").data
      (.obj [("k", .num 2)])).2.1 rfl rfl rfl,
   (plan_parse_fallback "no braces at all" [] .null).2.2 rfl rfl⟩

lemma mem_pyStrip {c : Char} {s : String} (h : c ∈ (pyStrip s).data) :
    c ∈ s.data := by
  unfold pyStrip at h
  rw [show (String.mk (((s.data.dropWhile pyIsSpace).reverse.dropWhile
        pyIsSpace).reverse)).data
      = ((s.data.dropWhile pyIsSpace).reverse.dropWhile pyIsSpace).reverse
      from rfl, List.mem_reverse] at h
  have h2 := List.dropWhile_subset pyIsSpace h
  rw [List.mem_reverse] at h2
  exact List.dropWhile_subset pyIsSpace h2

/-- C7: every character of the sanitized filename base is alphanumeric or
one of space, underscore, hyphen; for the title `"Reforms: 2024!!"` the
base is `"Reforms 2024"`, all of whose characters lie in
`[A-Za-z0-9 _-]`; and a title that sanitizes to the empty string falls
back to the fixed base name `"article"`. -/
theorem title_sanitization :
    (∀ (title : String) (c : Char), c ∈ (sanitizeTitle title).data →
       (pyIsAlnum c ∨ c = ' ' ∨ c = '_' ∨ c = '-'))
    ∧ sanitizeTitle "Reforms: 2024!!" = "Reforms 2024"
    ∧ (∀ c, c ∈ (filenameBase "Reforms: 2024!!").data →
        (c.isAlphanum ∨ c = ' ' ∨ c = '_' ∨ c = '-'))
    ∧ (∀ title, sanitizeTitle title = "" → filenameBase title = "article") := by
  refine ⟨?_, rfl, ?_, ?_⟩
  · intro title c hc
    unfold sanitizeTitle at hc
    have h2 := mem_pyStrip hc
    have h3 := (List.mem_filter.mp h2).2
    simpa using h3
  · intro c hc
    rw [show filenameBase "Reforms: 2024!!" = "Reforms 2024" from rfl] at hc
    fin_cases hc <;> simp
  · intro title h
    simp [filenameBase, h]

/-- C7 witness: the character 'O' of the sanitized base of "Ok" is
alphanumeric; the title "@@@" sanitizes to empty and yields the fallback
base. -/
theorem title_sanitization_witness :
    (pyIsAlnum 'O' ∨ 'O' = ' ' ∨ 'O' = '_' ∨ 'O' = '-')
    ∧ filenameBase "@@@" = "article" :=
  ⟨title_sanitization.1 "Ok" 'O' (by decide),
   title_sanitization.2.2.2 "@@@" rfl⟩

/-- C8 counterexample: a section whose heading is the empty string — not
an image-placeholder token — produces no second-level heading: the
renderer's guard `if heading and ...` also drops empty headings. -/
theorem empty_heading_not_rendered :
    renderSection ⟨some "", some "text body"⟩ = [DocElem.para "text body"]
    ∧ placeholderTokens.contains (pyLower "") = false :=
  ⟨rfl, rfl⟩

/-- C8 (amended): every section whose heading is nonempty and not an
image-placeholder token (case-insensitive, one of "imageplaceholder",
"image placeholder", "image") receives a second-level heading followed by
its body split into paragraphs on blank-line boundaries; a section whose
heading matches a placeholder token produces no second-level heading, only
its body paragraphs. -/
theorem section_heading_rendering (sec : Section) (h : String) :
    (sec.heading = some h → h ≠ "" →
       placeholderTokens.contains (pyLower h) = false →
       renderSection sec
         = DocElem.heading2 h :: (splitParas (sec.body.getD "")).map DocElem.para)
    ∧ (sec.heading = some h → placeholderTokens.contains (pyLower h) = true →
       renderSection sec = (splitParas (sec.body.getD "")).map DocElem.para) := by
  constructor
  · intro hh hne htok
    have htok' : pyLower h ∉ placeholderTokens := by simpa using htok
    simp [renderSection, hh, hne, htok']
  · intro hh htok
    have htok' : pyLower h ∈ placeholderTokens := by simpa using htok
    simp [renderSection, hh, htok']

/-- C8 witness: a normal section gets its heading; a placeholder-headed
section (in a synonymous case-varied phrasing) does not. -/
theorem section_heading_rendering_witness :
    renderSection ⟨some "Intro", some "a\n\nb"⟩
      = DocElem.heading2 "Intro" :: (splitParas "a\n\nb").map DocElem.para
    ∧ renderSection ⟨some "Image Placeholder", some "http://u"⟩
      = (splitParas "http://u").map DocElem.para :=
  ⟨(section_heading_rendering ⟨some "Intro", some "a\n\nb"⟩ "Intro").1
      rfl (by decide) rfl,
   (section_heading_rendering ⟨some "Image Placeholder", some "http://u"⟩
      "Image Placeholder").2 rfl rfl⟩

/-- C9: the image search returns the first item's direct `link` field when
present, else its `thumbnailLink or contextLink`; an empty `items` list
yields "no result" (`none`) through a SUCCESSFUL return, with a single
invocation and no retry; and the call propagates a failure only when the
HTTP layer failed on all 5 attempts, re-raising the last error. -/
theorem image_search_result_selection
    (respSeq : Nat → Except String (List ImageItem))
    (items : List ImageItem) (es : Nat → String) :
    (respSeq 1 = .ok items →
       google_search_image respSeq = (.ok (firstImageLink items), 1, []))
    ∧ firstImageLink [] = none
    ∧ (∀ (it : ImageItem) rest l, it.link = some l →
         firstImageLink (it :: rest) = some l)
    ∧ (∀ (it : ImageItem) rest, it.link = none →
         firstImageLink (it :: rest) = pyOrOpt it.thumbnailLink it.contextLink)
    ∧ ((∀ i, 1 ≤ i → i ≤ 5 → respSeq i = .error (es i)) →
         (google_search_image respSeq).1 = .raised (es 5)) := by
  refine ⟨?_, rfl, ?_, ?_, ?_⟩
  · intro h1
    unfold google_search_image with_backoff
    rw [show ((5 : ℤ) ⊔ 0).toNat = 5 from rfl,
        backoffLoop_ok (fun n => (respSeq n).map firstImageLink) 2
          (fun _ => "") (firstImageLink items) 0 1 5 1 none []
          (by intro i hi1 hi2; omega)
          (by simp [h1, Except.map])
          (by omega)]
    simp [geomSleeps]
  · intro it rest l hl
    simp [firstImageLink, hl]
  · intro it rest hl
    simp [firstImageLink, hl]
  · intro h
    unfold google_search_image with_backoff
    rw [show ((5 : ℤ) ⊔ 0).toNat = 5 from rfl,
        backoffLoop_allFail (fun n => (respSeq n).map firstImageLink) 2 es
          5 1 1 none [] (by omega)
          (by intro i h1 h2; simp [h i h1 (by omega), Except.map])]

/-- C9 witness: an empty result set returns `None` successfully on the
first invocation; five straight HTTP failures re-raise the fifth error. -/
theorem image_search_result_selection_witness :
    google_search_image (fun _ => .ok [])
      = (.ok (firstImageLink []), 1, [])
    ∧ (google_search_image (fun i => .error (toString i))).1
      = .raised (toString 5) :=
  ⟨(image_search_result_selection (fun _ => .ok []) [] (fun _ => "")).1 rfl,
   (image_search_result_selection (fun i => .error (toString i)) []
      (fun i => toString i)).2.2.2.2
      (by intro i h1 h2; rfl)⟩

end CadDesktop
